import Mathlib

/-!
Shallow embedding of `src/client/components/ToolPanel.jsx`: the event-driven
session protocol handler of the realtime console client. Pure data constants
become Lean constants, the two `useEffect` bodies and the submit handler
become explicit state-passing functions over `HandlerState`, the
`JSON.parse` / `String.prototype.trim` builtins are modelled on the fragment
the component uses, and JS exceptions become `Except.error` / `Option.none`.
-/

/-- Source constant `functionDescription` (a template literal whose content
starts and ends with a newline). -/
def functionDescription : String :=
  "\nCall this function when a user asks for a color palette.\n"

/-- Source constant `DEFAULT_INSTRUCTIONS`. -/
def DEFAULT_INSTRUCTIONS : String :=
  "You are a collaborative design partner. Offer concise, practical suggestions grounded in the latest design, accessibility, and branding best practices. Encourage follow-up questions and never invent color values that were not provided."

/-- Source constant `VOICE_OPTIONS`: (label, value) pairs; the first entry is
the default selection. -/
def VOICE_OPTIONS : List (String × String) :=
  [("Marin (friendly)", "marin"),
   ("Alloy (balanced)", "alloy"),
   ("Sol (energetic)", "sol"),
   ("Verse (narrative)", "verse")]

/-- The tool schema carried inside the source constant `sessionUpdate`:
`properties` and `required` keep only the declared parameter names, the
nested per-property descriptions carry no behavior. -/
structure ToolSchema where
  type : String
  name : String
  description : String
  strict : Bool
  properties : List String
  required : List String
deriving DecidableEq, Repr

/-- The `session` payload of the tool-registration `session.update` command. -/
structure SessionConfig where
  type : String
  tools : List ToolSchema
  tool_choice : String
deriving DecidableEq, Repr

/-- Source constant `sessionUpdate`: the tool-registration payload sent once
per session. -/
def sessionUpdate : SessionConfig :=
  { type := "realtime"
    tools := [{ type := "function"
                name := "display_color_palette"
                description := functionDescription
                strict := true
                properties := ["theme", "colors"]
                required := ["theme", "colors"] }]
    tool_choice := "auto" }

/-- JSON values: the result type of the `JSON.parse` builtin. -/
inductive Json where
  | null
  | bool (b : Bool)
  | num (n : Int)
  | str (s : String)
  | arr (elems : List Json)
  | obj (members : List (String × Json))

/-- Decoding of one escape sequence inside a JSON string literal (the simple
escapes; unicode escapes are outside the fragment this client exchanges). -/
def unescapeChar (c : Char) : Option Char :=
  if c = '"' then some '"'
  else if c = '\\' then some '\\'
  else if c = '/' then some '/'
  else if c = 'n' then some '\n'
  else if c = 't' then some '\t'
  else if c = 'r' then some '\r'
  else none

/-- Scan a JSON string literal after its opening quote, returning the decoded
characters and the input remaining after the closing quote. -/
def parseStringChars : List Char → Option (List Char × List Char)
  | [] => none
  | '"' :: cs => some ([], cs)
  | '\\' :: [] => none
  | '\\' :: e :: cs =>
    match unescapeChar e with
    | none => none
    | some ec =>
      match parseStringChars cs with
      | none => none
      | some (s, rest) => some (ec :: s, rest)
  | c :: cs =>
    match parseStringChars cs with
    | none => none
    | some (s, rest) => some (c :: s, rest)

/-- Skip the JSON whitespace characters (space, tab, newline, return). -/
def skipWs : List Char → List Char
  | [] => []
  | c :: cs => if c = ' ' || c = '\t' || c = '\n' || c = '\r' then skipWs cs else c :: cs

/-- Split a leading run of decimal digits from the input. -/
def parseDigits : List Char → List Char × List Char
  | [] => ([], [])
  | c :: cs =>
    if c.isDigit then
      let p := parseDigits cs
      (c :: p.1, p.2)
    else ([], c :: cs)

/-- Value of a run of decimal digits. -/
def digitsToNat (ds : List Char) : Nat :=
  ds.foldl (fun acc c => 10 * acc + (c.toNat - '0'.toNat)) 0

/-- Modelled from the `JSON.parse` builtin on the JSON fragment this client
exchanges: null, booleans, integer numbers, strings with simple escapes,
arrays and objects. Fuel-indexed so the recursion is structural (and hence
kernel-reducible); after an element and a comma inside an array or object,
the remaining elements are parsed by re-entering the function behind a
reopened bracket. -/
def parseValue : Nat → List Char → Option (Json × List Char)
  | 0, _ => none
  | fuel + 1, cs =>
    match skipWs cs with
    | 'n' :: 'u' :: 'l' :: 'l' :: rest => some (.null, rest)
    | 't' :: 'r' :: 'u' :: 'e' :: rest => some (.bool true, rest)
    | 'f' :: 'a' :: 'l' :: 's' :: 'e' :: rest => some (.bool false, rest)
    | '"' :: rest =>
      match parseStringChars rest with
      | none => none
      | some (s, r) => some (.str (String.mk s), r)
    | '[' :: rest =>
      match skipWs rest with
      | ']' :: r => some (.arr [], r)
      | r =>
        match parseValue fuel r with
        | none => none
        | some (v, r1) =>
          match skipWs r1 with
          | ',' :: r2 =>
            match parseValue fuel ('[' :: r2) with
            | some (.arr vs, r3) => some (.arr (v :: vs), r3)
            | _ => none
          | ']' :: r2 => some (.arr [v], r2)
          | _ => none
    | '\x7b' :: rest =>
      match skipWs rest with
      | '\x7d' :: r => some (.obj [], r)
      | '"' :: r =>
        match parseStringChars r with
        | none => none
        | some (k, r1) =>
          match skipWs r1 with
          | ':' :: r2 =>
            match parseValue fuel r2 with
            | none => none
            | some (v, r3) =>
              match skipWs r3 with
              | ',' :: r4 =>
                match parseValue fuel ('\x7b' :: r4) with
                | some (.obj ms, r5) => some (.obj ((String.mk k, v) :: ms), r5)
                | _ => none
              | '\x7d' :: r4 => some (.obj [(String.mk k, v)], r4)
              | _ => none
          | _ => none
      | _ => none
    | '-' :: rest =>
      match parseDigits rest with
      | ([], _) => none
      | (ds, r) => some (.num (-(Int.ofNat (digitsToNat ds))), r)
    | c :: rest =>
      if c.isDigit then
        let p := parseDigits (c :: rest)
        some (.num (Int.ofNat (digitsToNat p.1)), p.2)
      else none
    | [] => none

/-- Modelled from the `JSON.parse` builtin: parse one value allowing only
trailing whitespace; `none` models the SyntaxError exception thrown on
malformed input. -/
def jsonParse (s : String) : Option Json :=
  match parseValue (2 * s.length + 2) s.data with
  | none => none
  | some (v, rest) =>
    match skipWs rest with
    | [] => some v
    | _ => none

/-- Model of JS property access on a parsed JSON value: `none` models
`undefined` (missing key or non-object receiver); a later duplicate key
shadows an earlier one, as in JS object literals. -/
def jsGet (j : Json) (k : String) : Option Json :=
  match j with
  | .obj kvs => (kvs.reverse.find? (fun kv => kv.1 == k)).map (fun kv => kv.2)
  | _ => none

/-- The exceptions the `FunctionCallOutput` component can raise while
processing a ToolInvocation: `jsonError` is the SyntaxError from
`JSON.parse` on a malformed arguments string, `typeError` is the TypeError
from destructuring a null parse result or from calling `.map` on a missing
or non-array `colors` value. -/
inductive RenderError where
  | jsonError
  | typeError
deriving DecidableEq, Repr

/-- The data the component renders on success: the destructured `theme`
(possibly `undefined`, hence an `Option`) and the `colors` array whose
entries become the color boxes, in order. -/
structure PaletteView where
  theme : Option Json
  colors : List Json

/-- A `ToolInvocation` entry of `response.output`: the fields the component
reads (`type`, `name`, `arguments`). -/
structure OutputEntry where
  type : String
  name : String
  arguments : String
deriving DecidableEq, Repr

/-- Embeds the data processing of the `FunctionCallOutput` component: it
destructures `JSON.parse(functionCallOutput.arguments)` into `theme` and
`colors` and maps over `colors` to build the color boxes, with no try/catch
or shape guard; the JS exceptions become `Except.error`. -/
def FunctionCallOutput (functionCallOutput : OutputEntry) :
    Except RenderError PaletteView :=
  match jsonParse functionCallOutput.arguments with
  | none => .error .jsonError
  | some .null => .error .typeError
  | some j =>
    match jsGet j "colors" with
    | some (.arr colors) => .ok { theme := jsGet j "theme", colors := colors }
    | _ => .error .typeError

/-- The ASCII whitespace characters trimmed by `String.prototype.trim` that
occur in this client. -/
def isJsWhitespace (c : Char) : Bool :=
  c == ' ' || c == '\t' || c == '\n' || c == '\r'

/-- Modelled from the JS `String.prototype.trim` builtin, restricted to
ASCII whitespace: drop whitespace from both ends. -/
def jsTrim (s : String) : String :=
  String.mk (((s.data.dropWhile isJsWhitespace).reverse.dropWhile isJsWhitespace).reverse)

/-- A server-pushed event as the component reads it: its `type` tag and, for
`response.done` events, the `response.output` list (`none` models an absent
or non-truthy `output`). -/
structure RealtimeEvent where
  type : String
  responseOutput : Option (List OutputEntry) := none
deriving DecidableEq, Repr

/-- The client commands the component can send through `sendClientEvent`. -/
inductive Command where
  | sessionUpdateTools (session : SessionConfig)
  | sessionUpdateUser (instructions : String) (voice : String)
  | responseCreate (instructions : String)
deriving DecidableEq, Repr

/-- The literal instructions of the delayed follow-up `response.create`
command (a template literal: newline, 16 spaces of indentation on each text
line, 14 spaces before the closing backtick). -/
def followupInstructions : String :=
  "\n                ask for feedback about the color palette - don\x27t repeat\n                the colors, just ask if they like the colors.\n              "

/-- A one-shot timer as armed by `window.setTimeout`: its delay and the one
command its callback sends when it fires. -/
structure FollowupTimer where
  delayMs : Nat
  fire : Command
deriving DecidableEq, Repr

/-- The timer armed by the tool-completion rule: 500 ms delay; firing sends
exactly one `response.create` command carrying the follow-up instructions. -/
def followupTimer : FollowupTimer :=
  { delayMs := 500, fire := .responseCreate followupInstructions }

/-- The filter of the tool-completion rule: an output entry of type
`function_call` whose name is the registered tool name. -/
def paletteCallMatch (output : OutputEntry) : Bool :=
  output.type == "function_call" && output.name == "display_color_palette"

/-- The `forEach` loop of the tool-completion rule, translated as a
recursion over `response.output`: the first component accumulates the
`setFunctionCallOutput` calls (in order), the second the timers armed by
`window.setTimeout` (in order). -/
def completionScanFrom (acc : List OutputEntry × List FollowupTimer) :
    List OutputEntry → List OutputEntry × List FollowupTimer
  | [] => acc
  | output :: rest =>
    if paletteCallMatch output then
      completionScanFrom (acc.1 ++ [output], acc.2 ++ [followupTimer]) rest
    else
      completionScanFrom acc rest

/-- What one run of the events effect body produces: the commands sent
synchronously, the new `functionAdded` flag, the final
`functionCallOutput`, the sequence of `setFunctionCallOutput` calls
performed, and the timers armed (in order). -/
structure EffectResult where
  commands : List Command
  functionAdded : Bool
  functionCallOutput : Option OutputEntry
  fcoUpdates : List OutputEntry
  timersArmed : List FollowupTimer
deriving DecidableEq, Repr

/-- The body of the events `useEffect` (lines 106-140 of the source): guard
on a null/undefined or empty log, then the initialization rule (reading
`events[events.length - 1]`, the oldest entry of the newest-first log), then
the tool-completion rule (reading `events[0]`, the most recent entry). -/
def runEventsEffect (events : Option (List RealtimeEvent)) (functionAdded : Bool)
    (functionCallOutput : Option OutputEntry) : EffectResult :=
  match events with
  | none =>
    { commands := [], functionAdded := functionAdded,
      functionCallOutput := functionCallOutput, fcoUpdates := [], timersArmed := [] }
  | some [] =>
    { commands := [], functionAdded := functionAdded,
      functionCallOutput := functionCallOutput, fcoUpdates := [], timersArmed := [] }
  | some (e :: rest) =>
    let firstEvent := (e :: rest).getLastD e
    let initReaction :=
      if !functionAdded && firstEvent.type == "session.created" then
        ([Command.sessionUpdateTools sessionUpdate], true)
      else ([], functionAdded)
    let mostRecentEvent := e
    let completion :=
      if mostRecentEvent.type == "response.done" then
        match mostRecentEvent.responseOutput with
        | some outputList => completionScanFrom ([], []) outputList
        | none => ([], [])
      else ([], [])
    { commands := initReaction.1
      functionAdded := initReaction.2
      functionCallOutput :=
        match completion.1.getLast? with
        | some output => some output
        | none => functionCallOutput
      fcoUpdates := completion.1
      timersArmed := completion.2 }

/-- The handler state owned by `ToolPanel`: the five `useState` slots, plus
the armed-and-not-yet-fired timers, the one timer handle the current effect
cleanup closes over (`timeoutId`), and a fresh-id counter for timers. -/
structure HandlerState where
  functionAdded : Bool
  functionCallOutput : Option OutputEntry
  instructions : String
  voice : String
  lastSessionUpdate : Option String
  pendingTimers : List (Nat × FollowupTimer)
  retainedTimer : Option Nat
  nextTimerId : Nat
deriving DecidableEq, Repr

/-- The default voice: the value of the first entry of `VOICE_OPTIONS`. -/
def defaultVoice : String := (VOICE_OPTIONS.headD ("", "")).2

/-- The initial values of the five `useState` slots, with no timer armed. -/
def initialHandlerState : HandlerState :=
  { functionAdded := false, functionCallOutput := none,
    instructions := DEFAULT_INSTRUCTIONS, voice := defaultVoice,
    lastSessionUpdate := none, pendingTimers := [], retainedTimer := none,
    nextTimerId := 0 }

/-- Assign consecutive timer ids starting at `n` to a batch of armed
timers. -/
def armIds (n : Nat) : List FollowupTimer → List (Nat × FollowupTimer)
  | [] => []
  | t :: ts => (n, t) :: armIds (n + 1) ts

/-- The cleanup function returned by the events effect: `clearTimeout` on
the one retained handle (a no-op when no timer was armed in the previous
run, or when that timer already fired). -/
def runCleanup (st : HandlerState) : HandlerState :=
  match st.retainedTimer with
  | some id =>
    { st with pendingTimers := st.pendingTimers.filter (fun p => p.1 != id),
              retainedTimer := none }
  | none => st

/-- One re-run of the events effect on an event-log change: the previous
run's cleanup first (cancelling the retained timer), then the effect body;
the timers the body arms get fresh ids and only the last-armed handle is
retained (`timeoutId` is overwritten on each match of the `forEach`). Note
the effect neither reads nor depends on the session-active flag. -/
def onEventsChanged (events : Option (List RealtimeEvent)) (st : HandlerState) :
    List Command × HandlerState :=
  let st1 := runCleanup st
  let r := runEventsEffect events st1.functionAdded st1.functionCallOutput
  let armed := armIds st1.nextTimerId r.timersArmed
  (r.commands,
   { st1 with
       functionAdded := r.functionAdded
       functionCallOutput := r.functionCallOutput
       pendingTimers := st1.pendingTimers ++ armed
       retainedTimer := (armed.getLast?).map (fun p => p.1)
       nextTimerId := st1.nextTimerId + r.timersArmed.length })

/-- A pending timer elapses: its callback sends the one command it holds and
the timer is spent; firing an id that is not pending does nothing. -/
def fireTimer (id : Nat) (st : HandlerState) : List Command × HandlerState :=
  match st.pendingTimers.find? (fun p => p.1 == id) with
  | some p =>
    ([p.2.fire],
     { st with pendingTimers := st.pendingTimers.filter (fun q => q.1 != id) })
  | none => ([], st)

/-- The `isSessionActive` effect on the transition to inactive (lines
149-157 of the source): reset the five state slots to their initial values.
It does not touch the timers. -/
def onSessionEnded (st : HandlerState) : HandlerState :=
  { st with functionAdded := false, functionCallOutput := none,
            lastSessionUpdate := none, instructions := DEFAULT_INSTRUCTIONS,
            voice := defaultVoice }

/-- `handleSessionUpdateSubmit`: ignore the submit while inactive; otherwise
trim the instructions, substitute the default when the trimmed value is
empty (the JS falsy-or), send the user `session.update` command, and record
the submit time. -/
def handleSessionUpdateSubmit (isSessionActive : Bool) (now : String)
    (st : HandlerState) : List Command × HandlerState :=
  if !isSessionActive then ([], st)
  else
    let trimmedInstructions := jsTrim st.instructions
    ([Command.sessionUpdateUser
        (if trimmedInstructions == "" then DEFAULT_INSTRUCTIONS else trimmedInstructions)
        st.voice],
     { st with lastSessionUpdate := some now })

/-- Run a sequence of event-log updates through the handler, collecting the
commands of every pass in order. -/
def processLog : List (List RealtimeEvent) → HandlerState → List Command × HandlerState
  | [], st => ([], st)
  | l :: ls, st =>
    let step := onEventsChanged (some l) st
    let rest := processLog ls step.2
    (step.1 ++ rest.1, rest.2)

/-- Recognize the tool-registration variant of `session.update`. -/
def isToolRegistration : Command → Bool
  | .sessionUpdateTools _ => true
  | _ => false

/-- The well-formed arguments string of the round-trip property. -/
def goodArgs : String :=
  "\x7b\"theme\":\"ocean\",\"colors\":[\"#001\",\"#002\",\"#003\",\"#004\",\"#005\"]\x7d"

/-- The malformed arguments string of the error-handling property: valid
JSON, but the `colors` field is missing. -/
def badArgs : String := "\x7b\"theme\":\"x\"\x7d"

/-- A `session.created` lifecycle event. -/
def sessionCreatedEvent : RealtimeEvent := { type := "session.created" }

/-- A matching tool invocation carried by a `response.done` event. -/
def paletteEntry : OutputEntry :=
  { type := "function_call", name := "display_color_palette", arguments := goodArgs }

/-- A `response.done` event whose output holds one matching invocation. -/
def paletteDoneEvent : RealtimeEvent :=
  { type := "response.done", responseOutput := some [paletteEntry] }

/-- A handler state mid-session: the log (newest first) holds the completed
tool call and, oldest, the `session.created` marker, so the registration was
sent, one follow-up timer is pending, and the user has submitted one manual
session update. -/
def preTeardownState : HandlerState :=
  (handleSessionUpdateSubmit true "10:00:00"
    (onEventsChanged (some [paletteDoneEvent, sessionCreatedEvent])
      initialHandlerState).2).2

/-- A `response.done` event whose output holds two matching invocations
around one non-matching entry. -/
def mixedDoneEvent : RealtimeEvent :=
  { type := "response.done",
    responseOutput :=
      some [paletteEntry, { type := "message", name := "", arguments := "" },
            paletteEntry] }

/-! Helper lemmas about the embedding. -/

theorem completionScanFrom_eq (outs : List OutputEntry)
    (acc : List OutputEntry × List FollowupTimer) :
    completionScanFrom acc outs
      = (acc.1 ++ outs.filter paletteCallMatch,
         acc.2 ++ (outs.filter paletteCallMatch).map (fun _ => followupTimer)) := by
  induction outs generalizing acc with
  | nil => simp [completionScanFrom]
  | cons o os ih =>
    by_cases h : paletteCallMatch o = true
    · simp [completionScanFrom, h, ih, List.filter_cons]
    · simp [completionScanFrom, h, ih, List.filter_cons]

theorem map_const_followup (l : List OutputEntry) :
    (l.map fun _ => followupTimer) = List.replicate l.length followupTimer := by
  induction l with
  | nil => rfl
  | cons o os ih => simp [List.replicate_succ, ih]

theorem armIds_mem_ge (ts : List FollowupTimer) (m i : Nat) (t : FollowupTimer)
    (h : (i, t) ∈ armIds m ts) : m ≤ i := by
  induction ts generalizing m with
  | nil => simp [armIds] at h
  | cons x xs ih =>
    simp only [armIds, List.mem_cons] at h
    rcases h with h | h
    · cases h; exact Nat.le_refl _
    · exact Nat.le_of_succ_le (ih (m + 1) h)

theorem mem_armIds_replicate (N n i : Nat) (h1 : n ≤ i) (h2 : i < n + N) :
    (i, followupTimer) ∈ armIds n (List.replicate N followupTimer) := by
  induction N generalizing n with
  | zero => omega
  | succ k ih =>
    simp only [List.replicate_succ, armIds, List.mem_cons]
    by_cases he : i = n
    · exact Or.inl (by rw [he])
    · exact Or.inr (ih (n + 1) (by omega) (by omega))

theorem armIds_replicate_getLast (N n : Nat) (h : N ≠ 0) :
    (armIds n (List.replicate N followupTimer)).getLast?
      = some (n + (N - 1), followupTimer) := by
  induction N generalizing n with
  | zero => exact absurd rfl h
  | succ k ih =>
    cases k with
    | zero => rfl
    | succ m =>
      have h2 := ih (n := n + 1) (Nat.succ_ne_zero m)
      simp only [List.replicate_succ, armIds, List.getLast?_cons_cons] at h2 ⊢
      rw [h2]
      simp only [Option.some.injEq, Prod.mk.injEq]
      exact ⟨by omega, trivial⟩

theorem runEventsEffect_done_spec (e : RealtimeEvent) (rest : List RealtimeEvent)
    (outs : List OutputEntry) (fa : Bool) (fco : Option OutputEntry)
    (htype : e.type = "response.done") (hout : e.responseOutput = some outs) :
    (runEventsEffect (some (e :: rest)) fa fco).fcoUpdates
        = outs.filter paletteCallMatch ∧
    (runEventsEffect (some (e :: rest)) fa fco).timersArmed
        = (outs.filter paletteCallMatch).map (fun _ => followupTimer) ∧
    (runEventsEffect (some (e :: rest)) fa fco).functionCallOutput
        = (match (outs.filter paletteCallMatch).getLast? with
           | some output => some output
           | none => fco) := by
  simp only [runEventsEffect, htype, hout, beq_self_eq_true, if_true,
    completionScanFrom_eq, List.nil_append]
  refine ⟨?_, ?_, ?_⟩ <;> trivial

theorem runEventsEffect_added (events : Option (List RealtimeEvent))
    (fco : Option OutputEntry) :
    (runEventsEffect events true fco).commands = [] ∧
    (runEventsEffect events true fco).functionAdded = true := by
  match events with
  | none => exact ⟨rfl, rfl⟩
  | some [] => exact ⟨rfl, rfl⟩
  | some (e :: rest) =>
    simp only [runEventsEffect, Bool.not_true, Bool.false_and, Bool.false_eq_true,
      if_false]
    refine ⟨?_, ?_⟩ <;> trivial

theorem runCleanup_functionAdded (st : HandlerState) :
    (runCleanup st).functionAdded = st.functionAdded := by
  unfold runCleanup
  cases st.retainedTimer <;> rfl

theorem runCleanup_of_none (st : HandlerState) (hr : st.retainedTimer = none) :
    runCleanup st = st := by
  unfold runCleanup
  rw [hr]

theorem onEventsChanged_added (events : Option (List RealtimeEvent))
    (st : HandlerState) (h : st.functionAdded = true) :
    (onEventsChanged events st).1 = [] ∧
    (onEventsChanged events st).2.functionAdded = true := by
  have hfa : (runCleanup st).functionAdded = true := by
    rw [runCleanup_functionAdded, h]
  simp only [onEventsChanged, hfa]
  exact runEventsEffect_added events _

theorem processLog_added (ls : List (List RealtimeEvent)) (st : HandlerState)
    (h : st.functionAdded = true) :
    (processLog ls st).1 = [] ∧ (processLog ls st).2.functionAdded = true := by
  induction ls generalizing st with
  | nil => exact ⟨rfl, h⟩
  | cons l ls ih =>
    obtain ⟨hc, hf⟩ := onEventsChanged_added (some l) st h
    obtain ⟨hc2, hf2⟩ := ih _ hf
    simp only [processLog, hc, hc2, List.nil_append]
    exact ⟨by trivial, hf2⟩

theorem onEventsChanged_registers (l : List RealtimeEvent) (st : HandlerState)
    (hl : l ≠ [])
    (hlast : (l.getLastD { type := "" }).type = "session.created")
    (h : st.functionAdded = false) :
    (onEventsChanged (some l) st).1 = [Command.sessionUpdateTools sessionUpdate] ∧
    (onEventsChanged (some l) st).2.functionAdded = true := by
  match l with
  | [] => exact absurd rfl hl
  | e :: rest =>
    have hfa : (runCleanup st).functionAdded = false := by
      rw [runCleanup_functionAdded, h]
    rw [List.getLastD_cons] at hlast
    simp only [onEventsChanged, runEventsEffect, hfa, List.getLastD_cons, hlast,
      Bool.not_false, beq_self_eq_true, Bool.true_and, if_true]
    refine ⟨?_, ?_⟩ <;> trivial

/-! The claims. -/

/-- Claim C1 (refuted, code bug): the reaction to `isSessionActive` going
false resets `functionCallOutput` (the spec name is lastToolInvocation),
`functionAdded` (initialized) and `lastSessionUpdate` (lastUpdateTimestamp)
to their initial values, but it does NOT cancel the pending follow-up
timer: the timer armed before teardown is still pending afterwards, and
firing it still emits the `response.create` follow-up command after the
session has ended. -/
theorem C1_teardown_leaves_timer_pending :
    (onSessionEnded preTeardownState).functionAdded = false ∧
    (onSessionEnded preTeardownState).functionCallOutput = none ∧
    (onSessionEnded preTeardownState).lastSessionUpdate = none ∧
    preTeardownState.pendingTimers = [(0, followupTimer)] ∧
    (onSessionEnded preTeardownState).pendingTimers = [(0, followupTimer)] ∧
    (fireTimer 0 (onSessionEnded preTeardownState)).1
      = [Command.responseCreate followupInstructions] :=
  ⟨rfl, rfl, rfl, rfl, rfl, rfl⟩

/-- Claim C2 (refuted, code bug): on a stored ToolInvocation whose
arguments lack the `colors` field, `FunctionCallOutput` raises a TypeError
(`colors.map` on `undefined`), and on a non-JSON arguments string it raises
the `JSON.parse` SyntaxError; neither is caught, so the exception escapes
the handler boundary instead of producing an error-state result. -/
theorem C2_malformed_arguments_throw :
    FunctionCallOutput
        { type := "function_call", name := "display_color_palette",
          arguments := badArgs }
      = Except.error RenderError.typeError ∧
    FunctionCallOutput
        { type := "function_call", name := "display_color_palette",
          arguments := "oops" }
      = Except.error RenderError.jsonError :=
  ⟨rfl, rfl⟩

/-- Claim C5: while a session is active, submitting sends one
`session.update` command whose instructions are the trimmed instructions
when the trimmed value is nonempty and the default instructions otherwise,
whose voice is the submitted voice, and the submit time is recorded as
`lastSessionUpdate`. -/
theorem C5_submit_active (st : HandlerState) (now : String) :
    (jsTrim st.instructions ≠ "" →
      (handleSessionUpdateSubmit true now st).1
        = [Command.sessionUpdateUser (jsTrim st.instructions) st.voice]) ∧
    (jsTrim st.instructions = "" →
      (handleSessionUpdateSubmit true now st).1
        = [Command.sessionUpdateUser DEFAULT_INSTRUCTIONS st.voice]) ∧
    (handleSessionUpdateSubmit true now st).2.lastSessionUpdate = some now := by
  refine ⟨fun h => ?_, fun h => ?_, ?_⟩
  · simp [handleSessionUpdateSubmit, h]
  · simp [handleSessionUpdateSubmit, h]
  · simp [handleSessionUpdateSubmit]

/-- Witness for C5: submitting "  Be terse.  " with voice "sol" sends the
trimmed "Be terse.", and submitting "" with voice "alloy" sends the default
instructions. -/
theorem C5_submit_active_w :
    jsTrim "  Be terse.  " ≠ "" ∧
    (handleSessionUpdateSubmit true "10:12:00"
        { initialHandlerState with instructions := "  Be terse.  ", voice := "sol" }).1
      = [Command.sessionUpdateUser "Be terse." "sol"] ∧
    (handleSessionUpdateSubmit true "10:12:00"
        { initialHandlerState with instructions := "", voice := "alloy" }).1
      = [Command.sessionUpdateUser DEFAULT_INSTRUCTIONS "alloy"] := by
  refine ⟨by decide, ?_, ?_⟩
  · exact (C5_submit_active
      { initialHandlerState with instructions := "  Be terse.  ", voice := "sol" }
      "10:12:00").1 (by decide)
  · exact (C5_submit_active
      { initialHandlerState with instructions := "", voice := "alloy" }
      "10:12:00").2.1 rfl

/-- Claim C6: submitting while no session is active emits zero commands and
leaves the whole handler state (in particular `lastSessionUpdate`)
unchanged. -/
theorem C6_submit_inactive_noop (now : String) (st : HandlerState) :
    handleSessionUpdateSubmit false now st = ([], st) :=
  rfl

/-- Claim C8: the well-formed arguments string round-trips: theme "ocean"
and exactly the five color strings in their original order. -/
theorem C8_roundtrip_parse :
    FunctionCallOutput paletteEntry
      = Except.ok
          { theme := some (Json.str "ocean"),
            colors := [Json.str "#001", Json.str "#002", Json.str "#003",
                       Json.str "#004", Json.str "#005"] } :=
  rfl

/-- Claim C10: on a null/undefined (`none`) or empty event log the effect
body returns immediately: no command, no state update recorded, no timer
armed. -/
theorem C10_empty_log_guard (fa : Bool) (fco : Option OutputEntry) :
    runEventsEffect none fa fco
      = { commands := [], functionAdded := fa, functionCallOutput := fco,
          fcoUpdates := [], timersArmed := [] } ∧
    runEventsEffect (some []) fa fco
      = { commands := [], functionAdded := fa, functionCallOutput := fco,
          fcoUpdates := [], timersArmed := [] } :=
  ⟨rfl, rfl⟩

/-- Claim C3: over any sequence of event-log updates within one session
(each update is a nonempty newest-first log whose oldest entry is the
`session.created` marker of the session), starting with the `functionAdded`
flag false and with `session.created` occurring exactly once in the final
log, the tool-registration `session.update` command - carrying the
`display_color_palette` tool and tool choice "auto" - is emitted exactly
once over the whole sequence, however many further events arrive. -/
theorem C3_registration_exactly_once (logs : List (List RealtimeEvent))
    (st : HandlerState) (hne : logs ≠ [])
    (hsession : ∀ l ∈ logs,
      l ≠ [] ∧ (l.getLastD { type := "" }).type = "session.created")
    (honce : (logs.getLastD []).countP (fun e => e.type == "session.created") = 1)
    (hinit : st.functionAdded = false) :
    (processLog logs st).1.filter isToolRegistration
      = [Command.sessionUpdateTools sessionUpdate] ∧
    sessionUpdate.tool_choice = "auto" ∧
    sessionUpdate.tools.map ToolSchema.name = ["display_color_palette"] := by
  match logs with
  | [] => exact absurd rfl hne
  | l :: ls =>
    obtain ⟨hl, hlast⟩ := hsession l (List.mem_cons_self l ls)
    obtain ⟨hc1, hf1⟩ := onEventsChanged_registers l st hl hlast hinit
    obtain ⟨hc2, _⟩ := processLog_added ls _ hf1
    refine ⟨?_, rfl, rfl⟩
    simp only [processLog, hc1, hc2, List.append_nil, List.filter_cons]
    rfl

/-- Witness for C3: two updates of a growing newest-first log whose oldest
entry is the session marker; the registration command is emitted exactly
once. -/
theorem C3_registration_exactly_once_w :
    ([[sessionCreatedEvent], [paletteDoneEvent, sessionCreatedEvent]]
        ≠ ([] : List (List RealtimeEvent))) ∧
    (([[sessionCreatedEvent], [paletteDoneEvent, sessionCreatedEvent]].getLastD
        []).countP (fun e => e.type == "session.created") = 1) ∧
    (processLog [[sessionCreatedEvent], [paletteDoneEvent, sessionCreatedEvent]]
        initialHandlerState).1.filter isToolRegistration
      = [Command.sessionUpdateTools sessionUpdate] := by
  refine ⟨by decide, by decide, ?_⟩
  exact (C3_registration_exactly_once
    [[sessionCreatedEvent], [paletteDoneEvent, sessionCreatedEvent]]
    initialHandlerState (by decide) (by decide) (by decide) rfl).1

/-- Claim C4: when the most-recently-arrived event is `response.done` and
its output list holds exactly N matching `function_call` entries for
`display_color_palette`, the update arms exactly N follow-up timers,
performs exactly N ToolInvocation state updates, and retains the last
matching entry as the current `functionCallOutput`. -/
theorem C4_completion_counts (e : RealtimeEvent) (rest : List RealtimeEvent)
    (outs : List OutputEntry) (fa : Bool) (fco : Option OutputEntry) (N : Nat)
    (htype : e.type = "response.done") (hout : e.responseOutput = some outs)
    (hN : (outs.filter paletteCallMatch).length = N) :
    (runEventsEffect (some (e :: rest)) fa fco).timersArmed.length = N ∧
    (runEventsEffect (some (e :: rest)) fa fco).fcoUpdates.length = N ∧
    (0 < N → (runEventsEffect (some (e :: rest)) fa fco).functionCallOutput
        = (outs.filter paletteCallMatch).getLast?) := by
  obtain ⟨h1, h2, h3⟩ := runEventsEffect_done_spec e rest outs fa fco htype hout
  refine ⟨by rw [h2, List.length_map, hN], by rw [h1, hN], fun hpos => ?_⟩
  rw [h3]
  cases hg : (outs.filter paletteCallMatch).getLast? with
  | some x => rfl
  | none =>
    exfalso
    have hnil := List.getLast?_eq_none_iff.mp hg
    rw [hnil] at hN
    simp at hN
    omega

/-- Witness for C4: a completion event with two matching entries around a
non-matching one arms two timers, records two updates, and keeps the last
match. -/
theorem C4_completion_counts_w :
    (runEventsEffect (some [mixedDoneEvent]) false none).timersArmed.length = 2 ∧
    (runEventsEffect (some [mixedDoneEvent]) false none).fcoUpdates.length = 2 ∧
    (runEventsEffect (some [mixedDoneEvent]) false none).functionCallOutput
      = some paletteEntry := by
  have h := C4_completion_counts mixedDoneEvent []
    [paletteEntry, { type := "message", name := "", arguments := "" }, paletteEntry]
    false none 2 rfl rfl (by decide)
  refine ⟨h.1, h.2.1, ?_⟩
  rw [h.2.2 (by omega)]
  rfl

/-- Claim C7: every follow-up timer the effect ever arms has a 500 ms delay
and, on firing, emits exactly one `response.create` command carrying the
feedback instructions (ask about the palette, do not repeat the colors). -/
theorem C7_followup_timer_shape (events : Option (List RealtimeEvent))
    (fa : Bool) (fco : Option OutputEntry) (t : FollowupTimer)
    (ht : t ∈ (runEventsEffect events fa fco).timersArmed) :
    t.delayMs = 500 ∧ t.fire = Command.responseCreate followupInstructions := by
  have hteq : t = followupTimer := by
    match events with
    | none => simp [runEventsEffect] at ht
    | some [] => simp [runEventsEffect] at ht
    | some (e :: rest) =>
      simp only [runEventsEffect] at ht
      cases hdone : e.type == "response.done" with
      | false => simp [hdone] at ht
      | true =>
        cases hout2 : e.responseOutput with
        | none => simp [hdone, hout2] at ht
        | some outs =>
          simp only [hdone, hout2, if_true, completionScanFrom_eq,
            List.nil_append] at ht
          obtain ⟨a, -, haeq⟩ := List.mem_map.mp ht
          exact haeq.symm
  rw [hteq]
  exact ⟨rfl, rfl⟩

/-- Witness for C7: the timer armed for a singleton completion event. -/
theorem C7_followup_timer_shape_w :
    followupTimer ∈ (runEventsEffect (some [paletteDoneEvent]) false none).timersArmed ∧
    followupTimer.delayMs = 500 ∧
    followupTimer.fire = Command.responseCreate followupInstructions := by
  have hm : followupTimer
      ∈ (runEventsEffect (some [paletteDoneEvent]) false none).timersArmed := by
    exact List.Mem.head _
  exact ⟨hm, C7_followup_timer_shape (some [paletteDoneEvent]) false none followupTimer hm⟩

theorem runCleanup_nextTimerId (st : HandlerState) :
    (runCleanup st).nextTimerId = st.nextTimerId := by
  unfold runCleanup
  cases st.retainedTimer <;> rfl

theorem runCleanup_pending_of_some (st : HandlerState) (id : Nat)
    (h : st.retainedTimer = some id) :
    (runCleanup st).pendingTimers
      = st.pendingTimers.filter (fun p => p.1 != id) := by
  unfold runCleanup
  rw [h]

theorem onEventsChanged_pending_shape (ys : Option (List RealtimeEvent))
    (s : HandlerState) :
    (onEventsChanged ys s).2.pendingTimers
      = (runCleanup s).pendingTimers
        ++ armIds s.nextTimerId
            (runEventsEffect ys (runCleanup s).functionAdded
              (runCleanup s).functionCallOutput).timersArmed := by
  simp only [onEventsChanged, runCleanup_nextTimerId]

/-- Claim C9: per event-log update at most one timer handle is retained for
cancellation. After a pass whose most recent event is `response.done` with
N matching entries, all N timers are pending but only the handle of the
last-armed one is retained; on the next event-log change - whatever log
arrives, session teardown or not - the cleanup cancels exactly that
last-armed timer, while the N-1 earlier timers of the same pass stay
pending and fire unconditionally. -/
theorem C9_single_retained_handle (st : HandlerState) (e : RealtimeEvent)
    (rest : List RealtimeEvent) (outs : List OutputEntry) (N : Nat)
    (ys : Option (List RealtimeEvent))
    (hp : st.pendingTimers = []) (hr : st.retainedTimer = none)
    (htype : e.type = "response.done") (hout : e.responseOutput = some outs)
    (hN : (outs.filter paletteCallMatch).length = N) (hpos : 1 ≤ N) :
    (onEventsChanged (some (e :: rest)) st).2.retainedTimer
        = some (st.nextTimerId + (N - 1)) ∧
    (∀ i, st.nextTimerId ≤ i → i < st.nextTimerId + N →
      (i, followupTimer) ∈ (onEventsChanged (some (e :: rest)) st).2.pendingTimers) ∧
    (∀ i, st.nextTimerId ≤ i → i < st.nextTimerId + (N - 1) →
      (i, followupTimer) ∈
        (onEventsChanged ys (onEventsChanged (some (e :: rest)) st).2).2.pendingTimers) ∧
    (∀ t : FollowupTimer,
      (st.nextTimerId + (N - 1), t) ∉
        (onEventsChanged ys (onEventsChanged (some (e :: rest)) st).2).2.pendingTimers) := by
  have hclean : runCleanup st = st := runCleanup_of_none st hr
  have htim : (runEventsEffect (some (e :: rest)) st.functionAdded
      st.functionCallOutput).timersArmed = List.replicate N followupTimer := by
    obtain ⟨-, h2, -⟩ := runEventsEffect_done_spec e rest outs st.functionAdded
      st.functionCallOutput htype hout
    rw [h2, map_const_followup, hN]
  have hs1p : (onEventsChanged (some (e :: rest)) st).2.pendingTimers
      = armIds st.nextTimerId (List.replicate N followupTimer) := by
    rw [onEventsChanged_pending_shape, hclean, htim, hp, List.nil_append]
  have hs1r : (onEventsChanged (some (e :: rest)) st).2.retainedTimer
      = some (st.nextTimerId + (N - 1)) := by
    simp only [onEventsChanged, hclean, htim]
    rw [armIds_replicate_getLast N st.nextTimerId (by omega)]
    rfl
  have hs1n : (onEventsChanged (some (e :: rest)) st).2.nextTimerId
      = st.nextTimerId + N := by
    simp only [onEventsChanged, hclean, htim, List.length_replicate]
  have hs2p : (onEventsChanged ys (onEventsChanged (some (e :: rest)) st).2).2.pendingTimers
      = (armIds st.nextTimerId (List.replicate N followupTimer)).filter
          (fun p => p.1 != st.nextTimerId + (N - 1))
        ++ armIds (st.nextTimerId + N)
            (runEventsEffect ys
              (runCleanup (onEventsChanged (some (e :: rest)) st).2).functionAdded
              (runCleanup (onEventsChanged (some (e :: rest)) st).2).functionCallOutput).timersArmed := by
    rw [onEventsChanged_pending_shape, runCleanup_pending_of_some _ _ hs1r, hs1p, hs1n]
  refine ⟨hs1r, ?_, ?_, ?_⟩
  · intro i h1 h2
    rw [hs1p]
    exact mem_armIds_replicate N st.nextTimerId i h1 h2
  · intro i h1 h2
    rw [hs2p]
    apply List.mem_append_left
    apply List.mem_filter.mpr
    refine ⟨mem_armIds_replicate N st.nextTimerId i h1 (by omega), ?_⟩
    simp only [bne_iff_ne, ne_eq]
    omega
  · intro t hmem
    rw [hs2p] at hmem
    rcases List.mem_append.mp hmem with hleft | hright
    · have hpred := (List.mem_filter.mp hleft).2
      simp at hpred
    · have hge := armIds_mem_ge _ _ _ _ hright
      omega

/-- Witness for C9: starting fresh, a completion event with two matches
retains only the second handle (id 1); after a further event-log change
within the session, timer 0 is still pending and timer 1 is cancelled. -/
theorem C9_single_retained_handle_w :
    (onEventsChanged (some [mixedDoneEvent]) initialHandlerState).2.retainedTimer
      = some 1 ∧
    (0, followupTimer) ∈ (onEventsChanged (some [sessionCreatedEvent])
        (onEventsChanged (some [mixedDoneEvent]) initialHandlerState).2).2.pendingTimers ∧
    (∀ t : FollowupTimer, (1, t) ∉ (onEventsChanged (some [sessionCreatedEvent])
        (onEventsChanged (some [mixedDoneEvent]) initialHandlerState).2).2.pendingTimers) := by
  have h := C9_single_retained_handle initialHandlerState mixedDoneEvent []
    [paletteEntry, { type := "message", name := "", arguments := "" }, paletteEntry]
    2 (some [sessionCreatedEvent]) rfl rfl rfl rfl (by decide) (by omega)
  exact ⟨h.1, h.2.2.1 0 (Nat.le_refl 0) (by omega), fun t => h.2.2.2 t⟩
